import Mathlib

/-!
Verification of the streaming conversation synchronization engine of the
AI-Geotechnical-Assistant repository.  Each definition is a shallow embedding
of a function from the TypeScript source (chat client components, Next.js API
route handlers, and the MongoDB conversation-history store).  JavaScript
strings are modelled as Lean `String` where only equality and concatenation
matter, and as `List Char` where character-level operations (substring,
regex-style scanning) matter.  Fallible JavaScript code (property access on
`undefined`) is modelled with `Option`.
-/

/-- A message of the client transcript: `{ role, text }` as kept in the
`messages` React state of the chat components. -/
structure ChatMessage where
  role : String
  text : String
deriving DecidableEq

/-- Embedding of `appendToLastMessage` (identical in both chat components).
The JS code reads `prevMessages[prevMessages.length - 1]` and then
`lastMessage.text`; on an empty list `lastMessage` is `undefined`, so the
read of `.text` throws a TypeError, modelled as `none`.  On a non-empty list
it returns `[...prevMessages.slice(0, -1), { ...lastMessage, text:
lastMessage.text + text }]`. -/
def appendToLastMessage (text : String) (prevMessages : List ChatMessage) :
    Option (List ChatMessage) :=
  match prevMessages.getLast? with
  | none => none
  | some lastMessage =>
      some (prevMessages.dropLast ++ [{ lastMessage with text := lastMessage.text ++ text }])

/-- The three-dot suffix `"..."` used by the title route's truncations. -/
def ellipsis : List Char := ['.', '.', '.']

/-- Embedding of the no-LLM fallback of the title route:
`message.length > 50 ? message.substring(0, 47) + "..." : message`. -/
def simpleTitleOf (message : List Char) : List Char :=
  if message.length > 50 then message.take 47 ++ ellipsis else message

/-- JavaScript `String.prototype.trim`: strip whitespace at both ends. -/
def jsTrim (s : List Char) : List Char :=
  (((s.dropWhile Char.isWhitespace).reverse).dropWhile Char.isWhitespace).reverse

/-- The default title `"New Chat"` used when the LLM returns no content. -/
def newChatTitle : List Char := "New Chat".toList

/-- Embedding of `completion.choices[0]?.message?.content?.trim() || "New Chat"`:
`llmContent` is the optional chat-completion content. -/
def llmTitleOf (llmContent : Option (List Char)) : List Char :=
  match llmContent with
  | none => newChatTitle
  | some c =>
      let t := jsTrim c
      if t.isEmpty then newChatTitle else t

/-- Embedding of the final truncation of the title route:
`title.length > 60 ? title.substring(0, 57) + "..." : title`. -/
def finalTitleOf (title : List Char) : List Char :=
  if title.length > 60 then title.take 57 ++ ellipsis else title

/-- Embedding of the title route `POST` (validation branches aside): when the
`openai` client is absent it answers with `simpleTitleOf message`, otherwise
it answers with the truncated LLM title. -/
def titleRoutePOST (hasOpenAI : Bool) (llmContent : Option (List Char))
    (message : List Char) : List Char :=
  if !hasOpenAI then simpleTitleOf message
  else finalTitleOf (llmTitleOf llmContent)

/-- JavaScript falsiness of an optional string field of a request body:
the field is missing (`undefined`) or the empty string. -/
def strFalsy : Option String → Bool
  | none => true
  | some s => s == ""

/-- A run as returned by `openai.beta.threads.runs.list`. -/
structure RunInfo where
  id : String
  status : String
deriving DecidableEq

/-- Statuses treated as active by the messages route:
`in_progress`, `queued`, `requires_action`. -/
def activeStatus (s : String) : Bool :=
  s == "in_progress" || s == "queued" || s == "requires_action"

/-- Backend calls issued by the messages route `POST`, in program order. -/
inductive BackendAction where
  | listRuns (limit : Nat)
  | cancelRun (runId : String)
  | waitMs (ms : Nat)
  | createMessage (content : String)
  | startStream
deriving DecidableEq

/-- The observable outcome of the messages route `POST`: HTTP status, the
`error` field of the JSON body (if any), and the trace of backend calls
attempted. -/
structure RouteResult where
  status : Nat
  error : Option String
  actions : List BackendAction
deriving DecidableEq

/-- Embedding of the messages route `POST` (the active-run-guard version).
Body validation happens before any backend call; then the guard step lists
the last 5 runs, cancels the first active one (`runs.data.find`), and — only
when the cancellation call succeeds — waits 1000 ms; failures of the listing
or cancellation are caught and the message is still created and the run
stream started.  `listRunsResult` and `cancelOk` stand for the outcomes of
the corresponding backend calls. -/
def messagesPOST (threadId assistantIdOpt content : Option String)
    (listRunsResult : Except String (List RunInfo)) (cancelOk : Bool) : RouteResult :=
  if strFalsy content then ⟨400, some "Content is required", []⟩
  else if strFalsy threadId then ⟨400, some "Thread ID is required", []⟩
  else if strFalsy assistantIdOpt then ⟨500, some "Assistant ID is not configured", []⟩
  else
    let guardActions : List BackendAction :=
      match listRunsResult with
      | .error _ => [.listRuns 5]
      | .ok runs =>
          match runs.find? (fun r => activeStatus r.status) with
          | none => [.listRuns 5]
          | some activeRun =>
              .listRuns 5 :: .cancelRun activeRun.id ::
                (if cancelOk then [.waitMs 1000] else [])
    ⟨200, none, guardActions ++ [.createMessage (content.getD ""), .startStream]⟩

/-- Title length bound (C8): every answer of the title route is at most 60
characters; an LLM title longer than 60 characters becomes its first 57
characters plus three dots, and the no-LLM fallback turns a message longer
than 50 characters into its first 47 characters plus three dots. -/
theorem title_length_bound (hasOpenAI : Bool) (llmContent : Option (List Char))
    (message : List Char) :
    (titleRoutePOST hasOpenAI llmContent message).length ≤ 60 ∧
    (hasOpenAI = true → (llmTitleOf llmContent).length > 60 →
      titleRoutePOST hasOpenAI llmContent message = (llmTitleOf llmContent).take 57 ++ ellipsis) ∧
    (hasOpenAI = false → message.length > 50 →
      titleRoutePOST hasOpenAI llmContent message = message.take 47 ++ ellipsis) := by
  refine ⟨?_, ?_, ?_⟩
  · cases hasOpenAI with
    | false =>
        simp only [titleRoutePOST, simpleTitleOf, Bool.not_false, if_true]
        split
        · simp [ellipsis]
        · omega
    | true =>
        simp only [titleRoutePOST, finalTitleOf, Bool.not_true, Bool.false_eq_true, if_false]
        split
        · simp [ellipsis]
        · omega
  · intro h hlen
    subst h
    simp only [titleRoutePOST, finalTitleOf, Bool.not_true, Bool.false_eq_true, if_false]
    rw [if_pos hlen]
  · intro h hlen
    subst h
    simp only [titleRoutePOST, simpleTitleOf, Bool.not_false, if_true]
    rw [if_pos hlen]

/-- Witness for the title length bound at concrete inputs: the no-LLM path
on a 60-character message truncates to 47 characters plus dots, staying
within the 60-character bound. -/
theorem title_length_bound_witness :
    (titleRoutePOST false none (List.replicate 60 'a')).length ≤ 60 ∧
    titleRoutePOST false none (List.replicate 60 'a')
      = (List.replicate 60 'a').take 47 ++ ellipsis := by
  have h := title_length_bound false none (List.replicate 60 'a')
  exact ⟨h.1, h.2.2 rfl (by decide)⟩

/-- Counterexample to C4 as stated: applying a text delta to an empty
transcript is not a silent no-op.  The updater reads `.text` of `undefined`
and throws (modelled as `none`), instead of returning the unchanged empty
list. -/
theorem append_delta_empty_counterexample :
    appendToLastMessage "x" [] ≠ some ([] : List ChatMessage) ∧
    appendToLastMessage "x" [] = none := by
  constructor
  · decide
  · rfl

/-- Amended C4: on a non-empty transcript `appendToLastMessage` concatenates
the delta onto the last message's body; on an empty transcript the state
updater throws a TypeError (reading `.text` of `undefined`) — it does not
leave the transcript unchanged silently. -/
theorem append_delta_amended (text : String) (msgs : List ChatMessage)
    (m : ChatMessage) (h : msgs.getLast? = some m) :
    appendToLastMessage text msgs
      = some (msgs.dropLast ++ [{ m with text := m.text ++ text }]) ∧
    appendToLastMessage text [] = none := by
  constructor
  · simp [appendToLastMessage, h]
  · rfl

/-- Witness for the amended C4 at a concrete transcript. -/
theorem append_delta_amended_witness :
    appendToLastMessage " there" [⟨"assistant", "Hi"⟩]
      = some ([(⟨"assistant", "Hi"⟩ : ChatMessage)].dropLast
          ++ [⟨"assistant", "Hi" ++ " there"⟩]) ∧
    appendToLastMessage " there" [] = none :=
  append_delta_amended " there" [⟨"assistant", "Hi"⟩] ⟨"assistant", "Hi"⟩ rfl

/-- Implicit claim C9: a request body with a missing or empty `content`
field is answered with HTTP 400 and error `"Content is required"` before any
backend call (run listing, cancellation, message creation or run start) is
attempted, for every outcome of the backend collaborators. -/
theorem content_required_400 (threadId assistantIdOpt content : Option String)
    (listRunsResult : Except String (List RunInfo)) (cancelOk : Bool)
    (h : content = none ∨ content = some "") :
    messagesPOST threadId assistantIdOpt content listRunsResult cancelOk
      = ⟨400, some "Content is required", []⟩ := by
  rcases h with h | h <;> subst h <;> simp [messagesPOST, strFalsy]

/-- Witness for C9 at a concrete request: empty content, a well-formed
thread id and assistant id, and an active run listed — still answered 400
with no backend action. -/
theorem content_required_400_witness :
    messagesPOST (some "thread_1") (some "asst_1") (some "")
        (Except.ok [⟨"run_1", "in_progress"⟩]) true
      = ⟨400, some "Content is required", []⟩ :=
  content_required_400 (some "thread_1") (some "asst_1") (some "")
    (Except.ok [⟨"run_1", "in_progress"⟩]) true (Or.inr rfl)

/-- Active-run guard (C3): with a valid body, (1) the user message is
created for every outcome of the run listing and cancellation (failures
never abort the send), (2) the guard lists runs with lookback limit 5,
(3) whenever the listing succeeds and some listed run is active
(queued / in_progress / requires_action) a cancellation is issued for the
first such run, and (4) when that cancellation succeeds the route waits
1000 ms between the cancellation and the message creation. -/
theorem active_run_guard (threadId assistantIdOpt content : Option String)
    (listRunsResult : Except String (List RunInfo)) (cancelOk : Bool)
    (hc : strFalsy content = false) (ht : strFalsy threadId = false)
    (ha : strFalsy assistantIdOpt = false) :
    (BackendAction.createMessage (content.getD "")
        ∈ (messagesPOST threadId assistantIdOpt content listRunsResult cancelOk).actions) ∧
    (BackendAction.listRuns 5
        ∈ (messagesPOST threadId assistantIdOpt content listRunsResult cancelOk).actions) ∧
    (∀ runs r, listRunsResult = Except.ok runs →
      runs.find? (fun x => activeStatus x.status) = some r →
      BackendAction.cancelRun r.id
        ∈ (messagesPOST threadId assistantIdOpt content listRunsResult cancelOk).actions) ∧
    (∀ runs r, listRunsResult = Except.ok runs →
      runs.find? (fun x => activeStatus x.status) = some r → cancelOk = true →
      (messagesPOST threadId assistantIdOpt content listRunsResult cancelOk).actions
        = [BackendAction.listRuns 5, BackendAction.cancelRun r.id,
           BackendAction.waitMs 1000, BackendAction.createMessage (content.getD ""),
           BackendAction.startStream]) := by
  refine ⟨?_, ?_, ?_, ?_⟩
  · simp only [messagesPOST, hc, ht, ha, Bool.false_eq_true, if_false]
    cases listRunsResult with
    | error e => simp
    | ok runs =>
        cases hfind : runs.find? (fun x => activeStatus x.status) with
        | none => simp [hfind]
        | some r => cases cancelOk <;> simp [hfind]
  · simp only [messagesPOST, hc, ht, ha, Bool.false_eq_true, if_false]
    cases listRunsResult with
    | error e => simp
    | ok runs =>
        cases hfind : runs.find? (fun x => activeStatus x.status) with
        | none => simp [hfind]
        | some r => cases cancelOk <;> simp [hfind]
  · intro runs r hlist hfind
    subst hlist
    simp only [messagesPOST, hc, ht, ha, Bool.false_eq_true, if_false]
    cases cancelOk <;> simp [hfind]
  · intro runs r hlist hfind hcancel
    subst hlist
    subst hcancel
    simp [messagesPOST, hc, ht, ha, hfind]

/-- Witness for C3 at a concrete request with one in-progress run and a
successful cancellation: the full backend trace is list, cancel, 1-second
wait, message creation, stream start. -/
theorem active_run_guard_witness :
    (messagesPOST (some "thread_1") (some "asst_1") (some "hello")
        (Except.ok [⟨"run_1", "in_progress"⟩]) true).actions
      = [BackendAction.listRuns 5, BackendAction.cancelRun "run_1",
         BackendAction.waitMs 1000,
         BackendAction.createMessage ((some "hello").getD ""),
         BackendAction.startStream] :=
  (active_run_guard (some "thread_1") (some "asst_1") (some "hello")
      (Except.ok [⟨"run_1", "in_progress"⟩]) true rfl rfl rfl).2.2.2
    [⟨"run_1", "in_progress"⟩] ⟨"run_1", "in_progress"⟩ rfl (by decide) rfl

/-- A raw message of the chat-history endpoint's JSON (`data.messages`),
already in the flat format `{ role, content }`; the client parses it with
`msg.content?.[0]?.text?.value || msg.content || ''`, which for a flat
string content yields the content itself. -/
structure RawMessage where
  role : String
  content : String
deriving DecidableEq

/-- The parse step of `loadThread` in the polling chat component, for the
flat message format. -/
def parseRawMessage (m : RawMessage) : ChatMessage :=
  ⟨m.role, m.content⟩

/-- The React state of the polling chat component that the claims touch:
`threadId`, the `loadingThreadRef` ref, the `messages` list, the
`lastMessageCountRef` watermark, and the `isNewThread`, `inputDisabled`
and `isGroupConversation` flags. -/
structure ClientState where
  threadId : Option String
  loadingThread : Option String
  messages : List ChatMessage
  lastMessageCount : Nat
  isNewThread : Bool
  inputDisabled : Bool
  isGroupConversation : Bool
deriving DecidableEq

/-- Embedding of `appendMessage` of the polling chat component: appends the
message and records the new length in `lastMessageCountRef`. -/
def appendMessage (role text : String) (s : ClientState) : ClientState :=
  let newMessages := s.messages ++ [⟨role, text⟩]
  { s with messages := newMessages, lastMessageCount := newMessages.length }

/-- The synchronous part of `loadThread(targetThreadId, isInitialLoad)`
before the awaited fetch: tag `loadingThreadRef.current` with the target and,
on an initial load, select the thread. -/
def loadThreadStart (targetThreadId : String) (isInitialLoad : Bool)
    (s : ClientState) : ClientState :=
  let s1 := { s with loadingThread := some targetThreadId }
  if isInitialLoad then { s1 with threadId := some targetThreadId } else s1

/-- The continuation of `loadThread` once the history fetch resolved with
HTTP-ok flag `ok` and body messages `raw`.  The stale-response guard
(`loadingThreadRef.current !== targetThreadId && isInitialLoad`) discards
the result; otherwise a failed response clears the transcript; otherwise an
initial load always adopts the fetched messages, while a polling load adopts
them only when the fetched count exceeds the watermark. -/
def loadThreadResolve (targetThreadId : String) (isInitialLoad : Bool)
    (ok : Bool) (raw : List RawMessage) (s : ClientState) : ClientState :=
  if isInitialLoad && !(s.loadingThread == some targetThreadId) then s
  else if !ok then { s with messages := [], isNewThread := true }
  else
    let newMessages := raw.map parseRawMessage
    if isInitialLoad then
      { s with messages := newMessages,
               lastMessageCount := newMessages.length,
               isNewThread := newMessages.isEmpty }
    else if newMessages.length > s.lastMessageCount then
      { s with messages := newMessages,
               lastMessageCount := newMessages.length,
               isNewThread := newMessages.isEmpty }
    else s

/-- Embedding of `handleThreadSelect` of the polling chat component.
Selecting `none` shows the welcome screen; selecting a thread clears the
transcript and all per-thread state synchronously, selects the thread, and
starts an initial `loadThread` for it. -/
def handleThreadSelect (selectedThreadId : Option String) (isGroup : Bool)
    (s : ClientState) : ClientState :=
  match selectedThreadId with
  | none =>
      { s with threadId := some "", messages := [], isGroupConversation := false,
               isNewThread := false, lastMessageCount := 0 }
  | some t =>
      loadThreadStart t true
        { s with messages := [], lastMessageCount := 0, inputDisabled := false,
                 isGroupConversation := isGroup, isNewThread := false,
                 threadId := some t }

/-- One interleaving step of claim C2: either the stream appends a message
(`appendMessage`) or a background poll for thread `t` resolves with a
snapshot (`loadThread(t, false)` succeeding with body `raw`). -/
inductive SyncEvent where
  | streamAppend (role text : String)
  | pollSnapshot (raw : List RawMessage)
deriving DecidableEq

/-- Applying one `SyncEvent` to the client state. -/
def syncStep (t : String) (s : ClientState) : SyncEvent → ClientState
  | .streamAppend role text => appendMessage role text s
  | .pollSnapshot raw => loadThreadResolve t false true raw s

/-- Switch race-safety (C1): dispatch an initial load for thread `A`, switch
to thread `B` before it resolves, and let both fetches resolve.  The
late result for `A` is discarded without touching any state, the final
transcript is exactly `B`'s fetched messages, and in general a resolving
initial fetch mutates nothing unless its target is still the thread being
loaded. -/
theorem switch_race_safety (A B : String) (gA gB : Bool)
    (dataA dataB : List RawMessage) (s : ClientState) (hAB : A ≠ B) :
    loadThreadResolve A true true dataA
        (handleThreadSelect (some B) gB (handleThreadSelect (some A) gA s))
      = handleThreadSelect (some B) gB (handleThreadSelect (some A) gA s) ∧
    (loadThreadResolve B true true dataB
        (loadThreadResolve A true true dataA
          (handleThreadSelect (some B) gB (handleThreadSelect (some A) gA s)))).messages
      = dataB.map parseRawMessage ∧
    (∀ t ok data s', s'.loadingThread ≠ some t →
      loadThreadResolve t true ok data s' = s') := by
  have hdiscard : ∀ t ok data (s' : ClientState), s'.loadingThread ≠ some t →
      loadThreadResolve t true ok data s' = s' := by
    intro t ok data s' hne
    have hbeq : (s'.loadingThread == some t) = false := by
      simp [hne]
    simp [loadThreadResolve, hbeq]
  have hsel : (handleThreadSelect (some B) gB
      (handleThreadSelect (some A) gA s)).loadingThread = some B := by
    simp [handleThreadSelect, loadThreadStart]
  have h1 : loadThreadResolve A true true dataA
      (handleThreadSelect (some B) gB (handleThreadSelect (some A) gA s))
    = handleThreadSelect (some B) gB (handleThreadSelect (some A) gA s) := by
    apply hdiscard
    rw [hsel]
    simp [Ne.symm hAB]
  refine ⟨h1, ?_, hdiscard⟩
  rw [h1]
  have hbeq : ((handleThreadSelect (some B) gB
      (handleThreadSelect (some A) gA s)).loadingThread == some B) = true := by
    rw [hsel]
    simp
  simp [loadThreadResolve, hbeq]

/-- Witness for C1 at concrete threads and payloads. -/
theorem switch_race_safety_witness :
    (loadThreadResolve "B" true true [⟨"user", "hello B"⟩]
        (loadThreadResolve "A" true true [⟨"user", "hello A"⟩]
          (handleThreadSelect (some "B") false
            (handleThreadSelect (some "A") false
              ⟨none, none, [], 0, false, false, false⟩)))).messages
      = [(⟨"user", "hello B"⟩ : RawMessage)].map parseRawMessage :=
  (switch_race_safety "A" "B" false false [⟨"user", "hello A"⟩] [⟨"user", "hello B"⟩]
    ⟨none, none, [], 0, false, false, false⟩ (by decide)).2.1

/-- Reduction of `loadThreadResolve` for a successful non-initial (polling)
load: the stale-response guard and the response-ok check are skipped and
only the watermark comparison remains. -/
theorem loadThreadResolve_poll (t : String) (raw : List RawMessage)
    (s : ClientState) :
    loadThreadResolve t false true raw s
      = if (raw.map parseRawMessage).length > s.lastMessageCount then
          { s with messages := raw.map parseRawMessage,
                   lastMessageCount := (raw.map parseRawMessage).length,
                   isNewThread := (raw.map parseRawMessage).isEmpty }
        else s := rfl

/-- Helper for C2: one sync step keeps the watermark equal to the transcript
length and never shrinks the transcript. -/
theorem syncStep_mono (t : String) (e : SyncEvent) (s : ClientState)
    (h : s.lastMessageCount = s.messages.length) :
    (syncStep t s e).lastMessageCount = (syncStep t s e).messages.length ∧
    s.messages.length ≤ (syncStep t s e).messages.length := by
  cases e with
  | streamAppend role text => simp [syncStep, appendMessage]
  | pollSnapshot raw =>
      show (loadThreadResolve t false true raw s).lastMessageCount
          = (loadThreadResolve t false true raw s).messages.length ∧
        s.messages.length ≤ (loadThreadResolve t false true raw s).messages.length
      rw [loadThreadResolve_poll]
      by_cases hgt : (raw.map parseRawMessage).length > s.lastMessageCount
      · rw [if_pos hgt]
        refine ⟨rfl, ?_⟩
        show s.messages.length ≤ (raw.map parseRawMessage).length
        omega
      · rw [if_neg hgt]
        exact ⟨h, le_refl _⟩

/-- Helper for C2: folding any interleaving preserves the watermark
invariant and never shrinks the transcript. -/
theorem syncFold_mono (t : String) (events : List SyncEvent) (s : ClientState)
    (h : s.lastMessageCount = s.messages.length) :
    (events.foldl (syncStep t) s).lastMessageCount
        = (events.foldl (syncStep t) s).messages.length ∧
    s.messages.length ≤ (events.foldl (syncStep t) s).messages.length := by
  induction events generalizing s with
  | nil => exact ⟨h, le_refl _⟩
  | cons e es ih =>
      have hstep := syncStep_mono t e s h
      have hrest := ih (syncStep t s e) hstep.1
      exact ⟨hrest.1, le_trans hstep.2 hrest.2⟩

/-- Watermark monotonicity (C2): a polled snapshot replaces the transcript
only when it holds strictly more messages than the watermark — one with
fewer or equal messages is a no-op — and along every interleaving of
streamed appends and polled snapshots, started from a state whose watermark
matches its transcript length, the transcript length never decreases. -/
theorem watermark_monotonicity (t : String) (events : List SyncEvent)
    (s : ClientState) (h : s.lastMessageCount = s.messages.length) :
    (∀ (raw : List RawMessage) (s' : ClientState),
      raw.length ≤ s'.lastMessageCount →
      loadThreadResolve t false true raw s' = s') ∧
    (∀ (raw : List RawMessage) (s' : ClientState),
      raw.length > s'.lastMessageCount →
      (loadThreadResolve t false true raw s').messages = raw.map parseRawMessage) ∧
    (∀ (e : SyncEvent) (s' : ClientState),
      s'.lastMessageCount = s'.messages.length →
      s'.messages.length ≤ (syncStep t s' e).messages.length) ∧
    s.messages.length ≤ (events.foldl (syncStep t) s).messages.length := by
  refine ⟨?_, ?_, ?_, (syncFold_mono t events s h).2⟩
  · intro raw s' hle
    have hnot : ¬ ((raw.map parseRawMessage).length > s'.lastMessageCount) := by
      simp only [List.length_map]
      omega
    rw [loadThreadResolve_poll, if_neg hnot]
  · intro raw s' hgt
    have hgt' : (raw.map parseRawMessage).length > s'.lastMessageCount := by
      simp only [List.length_map]
      omega
    rw [loadThreadResolve_poll, if_pos hgt']
  · intro e s' h'
    exact (syncStep_mono t e s' h').2

/-- Witness for C2 at a concrete interleaving: a streamed append followed by
a stale empty snapshot leaves the transcript no shorter. -/
theorem watermark_monotonicity_witness :
    (⟨some "t", some "t", [⟨"user", "hi"⟩], 1, false, true, false⟩ :
        ClientState).messages.length
      ≤ (([SyncEvent.streamAppend "assistant" "", SyncEvent.pollSnapshot []]).foldl
          (syncStep "t")
          ⟨some "t", some "t", [⟨"user", "hi"⟩], 1, false, true, false⟩).messages.length :=
  (watermark_monotonicity "t"
    [SyncEvent.streamAppend "assistant" "", SyncEvent.pollSnapshot []]
    ⟨some "t", some "t", [⟨"user", "hi"⟩], 1, false, true, false⟩ rfl).2.2.2

/-- Semantic events of the assistant response stream, as wired by
`handleReadableStream` of the streaming chat component. -/
inductive StreamEvent where
  | textCreated
  | textDelta (text : String)
  | imageFileDone
  | toolCallCreated
  | toolCallDelta (text : String)
  | requiresAction
  | runCompleted
  | runFailed
  | runCancelled
  | streamError
deriving DecidableEq

/-- The explicit terminal events of a run:
`thread.run.completed`, `thread.run.failed`, `thread.run.cancelled`. -/
def isTerminalEvent : StreamEvent → Bool
  | .runCompleted => true
  | .runFailed => true
  | .runCancelled => true
  | _ => false

/-- How the registered stream handlers drive the `inputDisabled` flag:
`requires_action` disables input before submitting tool outputs, the three
terminal handlers and the error handler re-enable it, every other handler
leaves it alone. -/
def stepInputDisabled (disabled : Bool) : StreamEvent → Bool
  | .requiresAction => true
  | .runCompleted => false
  | .runFailed => false
  | .runCancelled => false
  | .streamError => false
  | _ => disabled

/-- The `inputDisabled` flag at the moment the transport closes, after the
emitted events have been handled. -/
def disabledAtTransportClose (events : List StreamEvent) (d0 : Bool) : Bool :=
  events.foldl stepInputDisabled d0

/-- The grace delay of the `stream.on("end", ...)` safety net:
`setTimeout(() => setInputDisabled(false), 100)`. -/
def endGraceDelayMs : Nat := 100

/-- The `end` handler's timeout callback: it calls `setInputDisabled(false)`
whatever the state at close was. -/
def onStreamEndTimeout (disabledAtClose : Bool) : Bool :=
  false

/-- The `inputDisabled` flag once the transport has closed and the end
handler's grace timeout has fired. -/
def disabledAfterStreamEnd (events : List StreamEvent) (d0 : Bool) : Bool :=
  onStreamEndTimeout (disabledAtTransportClose events d0)

/-- The SSE decoder `handleSSEStream` of the polling chat component: on
`done` from the reader it immediately calls `setInputDisabled(false)`. -/
def sseDisabledAfterDone (disabledAtClose : Bool) : Bool :=
  false

/-- Terminal fallback (C6): when the transport closes without any explicit
terminal event having been processed, the streaming component still ends
with input enabled after its 100 ms grace timeout (bounded by one second),
and the SSE decoder of the polling component re-enables input directly on
reader `done`. -/
theorem terminal_fallback (events : List StreamEvent) (d0 : Bool)
    (hnoterm : ∀ e ∈ events, isTerminalEvent e = false) :
    disabledAfterStreamEnd events d0 = false ∧
    endGraceDelayMs = 100 ∧ endGraceDelayMs ≤ 1000 ∧
    sseDisabledAfterDone (disabledAtTransportClose events d0) = false := by
  exact ⟨rfl, rfl, by decide, rfl⟩

/-- Witness for C6: a stream that emits a message start and a delta and then
closes with no terminal event still ends with input enabled. -/
theorem terminal_fallback_witness :
    disabledAfterStreamEnd [StreamEvent.textCreated, StreamEvent.textDelta "Hi"] true
      = false ∧
    endGraceDelayMs = 100 ∧ endGraceDelayMs ≤ 1000 ∧
    sseDisabledAfterDone
        (disabledAtTransportClose
          [StreamEvent.textCreated, StreamEvent.textDelta "Hi"] true)
      = false :=
  terminal_fallback [StreamEvent.textCreated, StreamEvent.textDelta "Hi"] true
    (by decide)

/-- The hardcoded single-user id of the MongoDB conversation store. -/
def USER_ID : String := "default-user"

/-- A conversation record of the MongoDB `conversations` collection. -/
structure ConversationRecord where
  userId : String
  threadId : String
  name : String
  isGroup : Bool
  createdAt : Nat
  updatedAt : Nat
deriving DecidableEq

/-- MongoDB `deleteOne`: remove the first document matching the filter. -/
def deleteOne (p : ConversationRecord → Bool) :
    List ConversationRecord → List ConversationRecord
  | [] => []
  | r :: rs => if p r then rs else r :: deleteOne p rs

/-- Embedding of the conversation-history route `DELETE` effect on the
collection: `deleteOne({ userId: USER_ID, threadId })`. -/
def historyDELETE (store : List ConversationRecord) (threadId : String) :
    List ConversationRecord :=
  deleteOne (fun r => r.userId == USER_ID && r.threadId == threadId) store

/-- A raw message of the `/history` endpoint used by the streaming chat
component; `contentValues` holds the `text.value` of each content block and
the client reads `msg.content[0]?.text?.value || ''`. -/
structure RawMessage010 where
  role : String
  contentValues : List String
deriving DecidableEq

/-- The parse step of the streaming component's `loadThread`. -/
def parseRaw010 (m : RawMessage010) : ChatMessage :=
  ⟨m.role, (m.contentValues.head?).getD ""⟩

/-- The response of the `/history` endpoint as seen by the client. -/
structure HistoryResponse where
  status : Nat
  messages : List RawMessage010
deriving DecidableEq

/-- `Response.ok` of the Fetch API: status in the 200-299 range. -/
def respOk (status : Nat) : Bool :=
  decide (200 ≤ status) && decide (status < 300)

/-- The React state of the streaming chat component that C7 touches. -/
structure ClientState010 where
  threadId : Option String
  messages : List ChatMessage
  isNewThread : Bool
  isGroupConversation : Bool
  userInput : String
deriving DecidableEq

/-- Embedding of `createNewThread` of the streaming chat component: reset to
the welcome state with no thread selected. -/
def createNewThread010 (s : ClientState010) : ClientState010 :=
  { s with threadId := none, messages := [], isGroupConversation := false,
           isNewThread := true, userInput := "" }

/-- Embedding of `loadThread` of the streaming chat component, combined with
the server-side effect of the cleanup `DELETE` it issues on a 404: select
the thread, fetch its history; on 404 remove the invalid record from the
conversation store, clear the transcript, deselect, and reset to a fresh
empty state; on another failed status the thrown error is caught and the
component also resets; on success adopt the parsed messages (reversed). -/
def loadThread010 (threadId : String) (resp : HistoryResponse)
    (store : List ConversationRecord) (s : ClientState010) :
    List ConversationRecord × ClientState010 :=
  let s0 := { s with threadId := some threadId }
  if resp.status == 404 then
    (historyDELETE store threadId,
     createNewThread010 { s0 with messages := [], threadId := none })
  else if !respOk resp.status then
    (store, createNewThread010 { s0 with messages := [] })
  else
    let msgs := (resp.messages.map parseRaw010).reverse
    (store, { s0 with messages := msgs, isNewThread := msgs.isEmpty })

/-- Helper for C7: `deleteOne` on a collection holding at most one matching
document leaves no matching document. -/
theorem deleteOne_no_match (p : ConversationRecord → Bool)
    (l : List ConversationRecord) (h : l.countP p ≤ 1) :
    ∀ r ∈ deleteOne p l, p r = false := by
  induction l with
  | nil => intro r hr; cases hr
  | cons x xs ih =>
      by_cases hx : p x
      · have hcount : xs.countP p = 0 := by
          rw [List.countP_cons_of_pos p _ hx] at h
          omega
        intro r hr
        have hr' : r ∈ xs := by
          simpa [deleteOne, hx] using hr
        have := List.countP_eq_zero.mp hcount r hr'
        simpa using this
      · intro r hr
        have hr' : r = x ∨ r ∈ deleteOne p xs := by
          simpa [deleteOne, hx] using hr
        rcases hr' with rfl | hr'
        · simpa using hx
        · refine ih ?_ r hr'
          rw [List.countP_cons_of_neg p _ hx] at h
          exact h

/-- 404 self-healing on load (C7): when the history fetch reports 404 and
the store holds at most one record for that conversation (registration is
idempotent), loading removes the conversation from the store, clears the
transcript, deselects the conversation and resets to the fresh empty state
with `isNewThread` set. -/
theorem notfound_self_healing (threadId : String) (resp : HistoryResponse)
    (store : List ConversationRecord) (s : ClientState010)
    (h404 : resp.status = 404)
    (huniq : store.countP
        (fun r => r.userId == USER_ID && r.threadId == threadId) ≤ 1) :
    (∀ r ∈ (loadThread010 threadId resp store s).1,
      ¬ (r.userId = USER_ID ∧ r.threadId = threadId)) ∧
    (loadThread010 threadId resp store s).2.messages = [] ∧
    (loadThread010 threadId resp store s).2.threadId = none ∧
    (loadThread010 threadId resp store s).2.isNewThread = true ∧
    (loadThread010 threadId resp store s).2.userInput = "" := by
  have hred : loadThread010 threadId resp store s
      = (historyDELETE store threadId,
         createNewThread010
           { s with threadId := none, messages := [] }) := by
    simp [loadThread010, h404]
  rw [hred]
  refine ⟨?_, rfl, rfl, rfl, rfl⟩
  intro r hr
  have := deleteOne_no_match
    (fun r => r.userId == USER_ID && r.threadId == threadId) store huniq r hr
  simp only [Bool.and_eq_false_iff, beq_eq_false_iff_ne] at this
  rcases this with h1 | h1
  · exact fun hc => h1 hc.1
  · exact fun hc => h1 hc.2

/-- Witness for C7 at a concrete store holding the invalid conversation. -/
theorem notfound_self_healing_witness :
    (∀ r ∈ (loadThread010 "thread_x" ⟨404, []⟩
        [⟨"default-user", "thread_x", "Chat 1", false, 0, 0⟩]
        ⟨some "thread_x", [⟨"user", "hi"⟩], false, false, "draft"⟩).1,
      ¬ (r.userId = USER_ID ∧ r.threadId = "thread_x")) ∧
    (loadThread010 "thread_x" ⟨404, []⟩
        [⟨"default-user", "thread_x", "Chat 1", false, 0, 0⟩]
        ⟨some "thread_x", [⟨"user", "hi"⟩], false, false, "draft"⟩).2.messages = [] ∧
    (loadThread010 "thread_x" ⟨404, []⟩
        [⟨"default-user", "thread_x", "Chat 1", false, 0, 0⟩]
        ⟨some "thread_x", [⟨"user", "hi"⟩], false, false, "draft"⟩).2.threadId = none ∧
    (loadThread010 "thread_x" ⟨404, []⟩
        [⟨"default-user", "thread_x", "Chat 1", false, 0, 0⟩]
        ⟨some "thread_x", [⟨"user", "hi"⟩], false, false, "draft"⟩).2.isNewThread = true ∧
    (loadThread010 "thread_x" ⟨404, []⟩
        [⟨"default-user", "thread_x", "Chat 1", false, 0, 0⟩]
        ⟨some "thread_x", [⟨"user", "hi"⟩], false, false, "draft"⟩).2.userInput = "" :=
  notfound_self_healing "thread_x" ⟨404, []⟩
    [⟨"default-user", "thread_x", "Chat 1", false, 0, 0⟩]
    ⟨some "thread_x", [⟨"user", "hi"⟩], false, false, "draft"⟩ rfl (by decide)

/-- The JSON answer of the conversation-history route `POST`. -/
structure HistoryPostResponse where
  status : Nat
  success : Bool
  message : Option String
  error : Option String
deriving DecidableEq

/-- Embedding of the conversation-history route `POST`: reject a falsy
`threadId`; otherwise `findOne({ userId: USER_ID, threadId })` — when the
thread already exists answer success without touching the collection,
otherwise insert a fresh record (name defaulting to the locale date string,
timestamps from `new Date()`). -/
def threadsHistoryPOST (threadIdOpt nameOpt : Option String) (isGroup : Bool)
    (now : Nat) (localeNow : String) (store : List ConversationRecord) :
    HistoryPostResponse × List ConversationRecord :=
  if strFalsy threadIdOpt then
    (⟨400, false, none, some "Thread ID is required"⟩, store)
  else
    let t := threadIdOpt.getD ""
    match store.find? (fun r => r.userId == USER_ID && r.threadId == t) with
    | some _ => (⟨200, true, some "Thread already exists", none⟩, store)
    | none =>
        let record : ConversationRecord :=
          ⟨USER_ID, t, if strFalsy nameOpt then localeNow else nameOpt.getD "",
           isGroup, now, now⟩
        (⟨200, true, none, none⟩, store ++ [record])

/-- Implicit claim C10: registering a conversation is idempotent — when a
record with the given `threadId` already exists for the user, the route
reports success and the collection is left exactly as it was (no duplicate,
and the existing record's name, group flag and timestamps unchanged). -/
theorem register_thread_idempotent (t : String) (nameOpt : Option String)
    (isGroup : Bool) (now : Nat) (localeNow : String)
    (store : List ConversationRecord) (ht : t ≠ "")
    (hexists : ∃ r ∈ store, r.userId = USER_ID ∧ r.threadId = t) :
    (threadsHistoryPOST (some t) nameOpt isGroup now localeNow store).1.success = true ∧
    (threadsHistoryPOST (some t) nameOpt isGroup now localeNow store).2 = store := by
  have hfalsy : strFalsy (some t) = false := by
    simp [strFalsy, ht]
  have hfind : store.find? (fun r => r.userId == USER_ID && r.threadId == t) ≠ none := by
    intro hnone
    rcases hexists with ⟨r, hr, hu, hid⟩
    have := List.find?_eq_none.mp hnone r hr
    simp [hu, hid] at this
  cases hfound : store.find? (fun r => r.userId == USER_ID && r.threadId == t) with
  | none => exact absurd hfound hfind
  | some r => constructor <;> simp [threadsHistoryPOST, hfalsy, hfound]

/-- Witness for C10: re-registering an existing thread id answers success
and leaves the one-record store unchanged. -/
theorem register_thread_idempotent_witness :
    (threadsHistoryPOST (some "thread_1") (some "Renamed") true 99 "now"
        [⟨"default-user", "thread_1", "Chat 1", false, 0, 0⟩]).1.success = true ∧
    (threadsHistoryPOST (some "thread_1") (some "Renamed") true 99 "now"
        [⟨"default-user", "thread_1", "Chat 1", false, 0, 0⟩]).2
      = [⟨"default-user", "thread_1", "Chat 1", false, 0, 0⟩] :=
  register_thread_idempotent "thread_1" (some "Renamed") true 99 "now"
    [⟨"default-user", "thread_1", "Chat 1", false, 0, 0⟩] (by decide)
    ⟨⟨"default-user", "thread_1", "Chat 1", false, 0, 0⟩, by
      constructor
      · simp
      · exact ⟨rfl, rfl⟩⟩

/-- Consume one expected character at the head of the input, as one step of
the citation regex `【(\d+):(\d+)†([^】]+)】`. -/
def expectChar (c : Char) : List Char → Option (List Char)
  | [] => none
  | x :: xs => if x = c then some xs else none

/-- Greedily consume a run of decimal digits (`\d*`); returns the digits and
the remaining input. -/
def takeDigits : List Char → List Char × List Char
  | [] => ([], [])
  | c :: cs =>
      if c.isDigit then (c :: (takeDigits cs).1, (takeDigits cs).2)
      else ([], c :: cs)

/-- Greedily consume a run of characters other than `】` (`[^】]*`). -/
def takeNonCloser : List Char → List Char × List Char
  | [] => ([], [])
  | c :: cs =>
      if c = '】' then ([], c :: cs)
      else (c :: (takeNonCloser cs).1, (takeNonCloser cs).2)

/-- One attempt of the citation regex `【(\d+):(\d+)†([^】]+)】` at the head
of the input: on success returns the full matched substring and the input
after the match.  Greedy matching of `\d+` and `[^】]+` agrees with the
JavaScript regex here because neither class can match its follower. -/
def matchCitation (l : List Char) : Option (List Char × List Char) :=
  match expectChar '【' l with
  | none => none
  | some r1 =>
      let d1 := (takeDigits r1).1
      let r2 := (takeDigits r1).2
      if d1.isEmpty then none else
      match expectChar ':' r2 with
      | none => none
      | some r3 =>
          let d2 := (takeDigits r3).1
          let r4 := (takeDigits r3).2
          if d2.isEmpty then none else
          match expectChar '†' r4 with
          | none => none
          | some r5 =>
              let t := (takeNonCloser r5).1
              let r6 := (takeNonCloser r5).2
              if t.isEmpty then none else
              match expectChar '】' r6 with
              | none => none
              | some r7 => some ('【' :: d1 ++ ':' :: d2 ++ '†' :: t ++ ['】'], r7)

/-- An annotation as consumed by `replaceCitationsWithFilenames`:
`hasFileCitation` models the truthiness of `annotation.file_citation`, and
`filename` the optional `annotation.file_citation.filename`. -/
structure CitationAnn where
  type : String
  text : List Char
  hasFileCitation : Bool
  filename : Option (List Char)

/-- The fallback filename `'Unknown File'` of the citation map. -/
def unknownFile : List Char := "Unknown File".toList

/-- JavaScript `Map.prototype.set`: overwrite the entry of an existing key,
otherwise add the binding at the end. -/
def mapSet (m : List (List Char × List Char)) (k v : List Char) :
    List (List Char × List Char) :=
  if m.any (fun kv => kv.1 == k) then
    m.map (fun kv => if kv.1 == k then (k, v) else kv)
  else m ++ [(k, v)]

/-- JavaScript `Map.prototype.get` on the association list. -/
def mapGet (m : List (List Char × List Char)) (k : List Char) :
    Option (List Char) :=
  (m.find? (fun kv => kv.1 == k)).map (fun kv => kv.2)

/-- The `citationMap` construction of `replaceCitationsWithFilenames`: for
each annotation of type `file_citation` with a `file_citation` payload, map
its `text` to its filename (or `'Unknown File'`). -/
def buildCitationMap (anns : List CitationAnn) : List (List Char × List Char) :=
  anns.foldl
    (fun m a =>
      if a.type == "file_citation" && a.hasFileCitation then
        mapSet m a.text (a.filename.getD unknownFile)
      else m)
    []

/-- The replacement written for a citation resolved in the map:
`` _(Source: filename)_ `` with one surrounding space on each side. -/
def sourceRepl (filename : List Char) : List Char :=
  " _(Source: ".toList ++ filename ++ ")_ ".toList

/-- The replacement written for a citation missing from the map. -/
def fallbackRepl : List Char := " _(Source: Referenced File)_ ".toList

/-- The global-replace loop of `text.replace(citationRegex, ...)`: at each
position try the citation regex; on a match emit the mapped replacement and
continue after the match, otherwise keep the character and move one
position.  The fuel argument bounds the recursion and is instantiated with
the text length, which suffices since every step consumes input. -/
def scanText (m : List (List Char × List Char)) : Nat → List Char → List Char
  | 0, l => l
  | _ + 1, [] => []
  | fuel + 1, c :: cs =>
      match matchCitation (c :: cs) with
      | some (matched, rest) =>
          (match mapGet m matched with
           | some filename => sourceRepl filename
           | none => fallbackRepl) ++ scanText m fuel rest
      | none => c :: scanText m fuel cs

/-- Embedding of `replaceCitationsWithFilenames(text, annotations)`. -/
def replaceCitationsWithFilenames (text : List Char) (anns : List CitationAnn) :
    List Char :=
  scanText (buildCitationMap anns) text.length text

/-- The citation marker `【6:0†source】` of the claim, as characters. -/
def markerChars : List Char :=
  ['【', '6', ':', '0', '†', 's', 'o', 'u', 'r', 'c', 'e', '】']

/-- Does the list start with the given needle? -/
def startsWith : List Char → List Char → Bool
  | _, [] => true
  | [], _ :: _ => false
  | h :: hs, n :: ns => h == n && startsWith hs ns

/-- Does the needle occur as a contiguous substring of the haystack? -/
def occursIn : List Char → List Char → Bool
  | needle, [] => needle.isEmpty
  | needle, c :: cs => startsWith (c :: cs) needle || occursIn needle cs

/-- The filename of the claim's annotation. -/
def reportFn : List Char := "report.pdf".toList

/-- The human-readable source reference the claim looks for. -/
def sourceTarget : List Char := "(Source: report.pdf)".toList

/-- The annotation list of the claim: exactly the marker text mapped to
`report.pdf`. -/
def reportAnns : List CitationAnn :=
  [⟨"file_citation", markerChars, true, some reportFn⟩]

/-- A text containing the marker `【6:0†source】` as a substring, on which
the leftmost regex match starts earlier and swallows the marker:
`【6:0†【6:0†source】`. -/
def badText : List Char := '【' :: '6' :: ':' :: '0' :: '†' :: markerChars

/-- Unfolding of one scanning step on a non-empty input with fuel left. -/
theorem scanText_succ_cons (m : List (List Char × List Char)) (fuel : Nat)
    (c : Char) (cs : List Char) :
    scanText m (fuel + 1) (c :: cs)
      = match matchCitation (c :: cs) with
        | some (matched, rest) =>
            (match mapGet m matched with
             | some filename => sourceRepl filename
             | none => fallbackRepl) ++ scanText m fuel rest
        | none => c :: scanText m fuel cs := rfl

/-- The citation regex cannot match at a position not holding `【`. -/
theorem matchCitation_none_head (c : Char) (cs : List Char) (h : c ≠ '【') :
    matchCitation (c :: cs) = none := by
  simp [matchCitation, expectChar, h]

/-- At the marker itself the citation regex matches exactly the marker,
whatever follows: the digit runs stop at `:` and `†`, and the greedy
`[^】]+` stops at the marker's own `】`. -/
theorem matchCitation_marker (s : List Char) :
    matchCitation
        ('【' :: '6' :: ':' :: '0' :: '†' :: 's' :: 'o' :: 'u' :: 'r' :: 'c' :: 'e' :: '】' :: s)
      = some (markerChars, s) := rfl

/-- Scanning leaves a text without `【` unchanged: no position can start a
citation match. -/
theorem scanText_no_open (m : List (List Char × List Char)) (fuel : Nat)
    (l : List Char) (h : '【' ∉ l) : scanText m fuel l = l := by
  induction fuel generalizing l with
  | zero => rfl
  | succ n ih =>
      cases l with
      | nil => rfl
      | cons c cs =>
          have hc : c ≠ '【' := by
            intro hcEq
            subst hcEq
            exact h (List.mem_cons_self _ _)
          have hcs : '【' ∉ cs := fun hmem => h (List.mem_cons_of_mem c hmem)
          rw [scanText_succ_cons, matchCitation_none_head c cs hc]
          show c :: scanText m n cs = c :: cs
          rw [ih cs hcs]

/-- Scanning a text made of a `【`-free part, the marker, and a `【`-free
tail rewrites exactly the marker with its mapped replacement. -/
theorem scanText_context (m : List (List Char × List Char)) (fn : List Char)
    (hm : mapGet m markerChars = some fn) (p : List Char) :
    ∀ (fuel : Nat) (s : List Char), p.length < fuel → '【' ∉ p → '【' ∉ s →
      scanText m fuel (p ++ markerChars ++ s) = p ++ sourceRepl fn ++ s := by
  induction p with
  | nil =>
      intro fuel s hfuel hp hs
      cases fuel with
      | zero => omega
      | succ n =>
          have hshape : ([] : List Char) ++ markerChars ++ s
              = '【' :: '6' :: ':' :: '0' :: '†' :: 's' :: 'o' :: 'u' :: 'r' :: 'c' :: 'e' :: '】' :: s := by
            simp [markerChars]
          rw [hshape, scanText_succ_cons, matchCitation_marker s]
          show (match mapGet m markerChars with
                | some filename => sourceRepl filename
                | none => fallbackRepl) ++ scanText m n s
              = ([] : List Char) ++ sourceRepl fn ++ s
          rw [hm]
          show sourceRepl fn ++ scanText m n s = ([] : List Char) ++ sourceRepl fn ++ s
          rw [scanText_no_open m n s hs]
          simp
  | cons c p' ih =>
      intro fuel s hfuel hp hs
      cases fuel with
      | zero => simp at hfuel
      | succ n =>
          have hc : c ≠ '【' := by
            intro hcEq
            subst hcEq
            exact hp (List.mem_cons_self _ _)
          have hp' : '【' ∉ p' := fun hmem => hp (List.mem_cons_of_mem c hmem)
          have hshape : (c :: p') ++ markerChars ++ s
              = c :: (p' ++ markerChars ++ s) := by simp
          rw [hshape, scanText_succ_cons,
            matchCitation_none_head c (p' ++ markerChars ++ s) hc]
          show c :: scanText m n (p' ++ markerChars ++ s)
              = (c :: p') ++ sourceRepl fn ++ s
          have hlen : p'.length < n := by
            simp only [List.length_cons] at hfuel
            omega
          rw [ih n s hlen hp' hs]
          simp

/-- A list starts with itself followed by anything. -/
theorem startsWith_append_self (n b : List Char) :
    startsWith (n ++ b) n = true := by
  induction n with
  | nil => cases b <;> rfl
  | cons x xs ih => simp [startsWith, ih]

/-- Placing the needle between two lists makes it occur. -/
theorem occursIn_of_append (a n b : List Char) :
    occursIn n (a ++ n ++ b) = true := by
  induction a with
  | nil =>
      cases n with
      | nil =>
          cases b with
          | nil => rfl
          | cons c cs => simp [occursIn, startsWith]
      | cons x xs =>
          have h := startsWith_append_self (x :: xs) b
          simp only [List.nil_append, List.cons_append] at h ⊢
          simp [occursIn, h]
  | cons c a' ih =>
      have hshape : (c :: a') ++ n ++ b = c :: (a' ++ n ++ b) := by simp
      rw [hshape]
      show (startsWith (c :: (a' ++ n ++ b)) n || occursIn n (a' ++ n ++ b)) = true
      rw [ih]
      simp

/-- A needle that starts the haystack only uses the haystack's characters. -/
theorem startsWith_subset (needle : List Char) :
    ∀ hay : List Char, startsWith hay needle = true →
      ∀ x ∈ needle, x ∈ hay := by
  induction needle with
  | nil => intro hay _ x hx; cases hx
  | cons nc ns ih =>
      intro hay hsw x hx
      cases hay with
      | nil => simp [startsWith] at hsw
      | cons h hs =>
          simp only [startsWith, Bool.and_eq_true, beq_iff_eq] at hsw
          rcases List.mem_cons.mp hx with rfl | hx'
          · rw [← hsw.1]
            exact List.mem_cons_self _ _
          · exact List.mem_cons_of_mem h (ih hs hsw.2 x hx')

/-- A needle occurring in the haystack only uses the haystack's
characters. -/
theorem occursIn_subset (needle : List Char) :
    ∀ hay : List Char, occursIn needle hay = true →
      ∀ x ∈ needle, x ∈ hay := by
  intro hay
  induction hay with
  | nil =>
      intro hocc x hx
      simp only [occursIn, List.isEmpty_iff] at hocc
      subst hocc
      cases hx
  | cons c cs ih =>
      intro hocc x hx
      simp only [occursIn, Bool.or_eq_true] at hocc
      rcases hocc with hsw | hocc'
      · exact startsWith_subset needle (c :: cs) hsw x hx
      · exact List.mem_cons_of_mem c (ih hocc' x hx)

/-- A needle holding `【` cannot occur in a haystack without `【`. -/
theorem occursIn_eq_false_of_no_open (needle hay : List Char)
    (hn : '【' ∈ needle) (hh : '【' ∉ hay) : occursIn needle hay = false := by
  cases hocc : occursIn needle hay with
  | false => rfl
  | true => exact absurd (occursIn_subset needle hay hocc '【' hn) hh

/-- Counterexample to C5 as stated: the text `【6:0†【6:0†source】` contains
the marker `【6:0†source】`, yet with the claim's annotation list the rewrite
yields ` _(Source: Referenced File)_ ` — the leftmost regex match starts at
the earlier `【` and swallows the marker, whose exact text is then missing
from the citation map — so the result does not contain
`(Source: report.pdf)`. -/
theorem citation_rewrite_counterexample :
    occursIn markerChars badText = true ∧
    occursIn sourceTarget (replaceCitationsWithFilenames badText reportAnns) = false ∧
    replaceCitationsWithFilenames badText reportAnns = fallbackRepl := by
  refine ⟨by decide, by decide, by decide⟩

/-- Amended C5: for a text made of the marker `【6:0†source】` between a
`【`-free front and a `【`-free tail (so no earlier citation-pattern match
can swallow the marker), the rewrite with an annotation list mapping exactly
that marker to `report.pdf` replaces exactly the marker: the result contains
`(Source: report.pdf)`, contains no occurrence of the marker, and a second
application of the rewrite with the same annotation list leaves it
unchanged. -/
theorem citation_rewrite_amended (p s : List Char)
    (hp : '【' ∉ p) (hs : '【' ∉ s) :
    replaceCitationsWithFilenames (p ++ markerChars ++ s) reportAnns
      = p ++ sourceRepl reportFn ++ s ∧
    occursIn sourceTarget
        (replaceCitationsWithFilenames (p ++ markerChars ++ s) reportAnns) = true ∧
    occursIn markerChars
        (replaceCitationsWithFilenames (p ++ markerChars ++ s) reportAnns) = false ∧
    replaceCitationsWithFilenames (p ++ sourceRepl reportFn ++ s) reportAnns
      = p ++ sourceRepl reportFn ++ s := by
  have hm : mapGet (buildCitationMap reportAnns) markerChars = some reportFn := by
    decide
  have hfuel : p.length < (p ++ markerChars ++ s).length := by
    simp [markerChars]
  have h1 : replaceCitationsWithFilenames (p ++ markerChars ++ s) reportAnns
      = p ++ sourceRepl reportFn ++ s := by
    unfold replaceCitationsWithFilenames
    exact scanText_context (buildCitationMap reportAnns) reportFn hm p
      (p ++ markerChars ++ s).length s hfuel hp hs
  have hout : '【' ∉ p ++ sourceRepl reportFn ++ s := by
    intro hmem
    rcases List.mem_append.mp hmem with hmem' | hmem'
    · rcases List.mem_append.mp hmem' with h' | h'
      · exact hp h'
      · revert h'
        decide
    · exact hs hmem'
  refine ⟨h1, ?_, ?_, ?_⟩
  · rw [h1]
    have hsplit : p ++ sourceRepl reportFn ++ s
        = (p ++ " _".toList) ++ sourceTarget ++ ("_ ".toList ++ s) := by
      have hrepl : sourceRepl reportFn
          = " _".toList ++ sourceTarget ++ "_ ".toList := by decide
      rw [hrepl]
      simp [List.append_assoc]
    rw [hsplit]
    exact occursIn_of_append _ _ _
  · rw [h1]
    exact occursIn_eq_false_of_no_open markerChars _ (by decide) hout
  · unfold replaceCitationsWithFilenames
    exact scanText_no_open _ _ _ hout

/-- Witness for the amended C5 at a concrete text `See 【6:0†source】 ok`. -/
theorem citation_rewrite_amended_witness :
    replaceCitationsWithFilenames
        ("See ".toList ++ markerChars ++ " ok".toList) reportAnns
      = "See ".toList ++ sourceRepl reportFn ++ " ok".toList ∧
    occursIn sourceTarget
        (replaceCitationsWithFilenames
          ("See ".toList ++ markerChars ++ " ok".toList) reportAnns) = true ∧
    occursIn markerChars
        (replaceCitationsWithFilenames
          ("See ".toList ++ markerChars ++ " ok".toList) reportAnns) = false ∧
    replaceCitationsWithFilenames
        ("See ".toList ++ sourceRepl reportFn ++ " ok".toList) reportAnns
      = "See ".toList ++ sourceRepl reportFn ++ " ok".toList :=
  citation_rewrite_amended ("See ".toList) (" ok".toList) (by decide) (by decide)
